import Mathlib

/-!
Verification of the parsing/scoring core of `discord_life_os.py`
(natural-language todo parser, urgency scorer, event parser, todo
status updates), as a shallow embedding in Lean 4.

Strings are modelled as `List Char` / `String`; the specific regular
expressions used by the code are embedded as dedicated scanning
functions with Python `re` semantics (leftmost match, greedy with the
backtracking each concrete pattern actually allows).  Character
classes (`\w`, `\s`, case folding) are modelled over ASCII; the
concrete patterns of the program only use ASCII keywords.

Python `datetime.date` is modelled by its proleptic-Gregorian ordinal
(`date.toordinal()`, `0001-01-01 = 1`); `datetime.date.max` is
9999-12-31 = ordinal 3652059, and arithmetic past it raises
`OverflowError`, which the embedding models as `Except.error`.
-/

namespace LifeOS

/-! ## Characters and basic string utilities -/

/-- ASCII lower-casing, as Python `str.lower` acts on ASCII letters. -/
def lowerChar (c : Char) : Char :=
  if 'A' ≤ c ∧ c ≤ 'Z' then Char.ofNat (c.toNat + 32) else c

/-- ASCII upper-casing of one character. -/
def upperChar (c : Char) : Char :=
  if 'a' ≤ c ∧ c ≤ 'z' then Char.ofNat (c.toNat - 32) else c

/-- `\d` of Python `re`. -/
def isDigitCh (c : Char) : Bool := '0' ≤ c ∧ c ≤ '9'

/-- `\w` of Python `re` (ASCII part: letters, digits, underscore). -/
def isWordCh (c : Char) : Bool := c.isAlpha || isDigitCh c || c = '_'

/-- `\s` of Python `re` (ASCII part: space, \t, \n, \v, \f, \r). -/
def isSpaceCh (c : Char) : Bool :=
  c = ' ' || c = '\t' || c = '\n' || c = '\x0b' || c = '\x0c' || c = '\r'

/-- Case-insensitive character comparison (`re.IGNORECASE`, ASCII). -/
def chEqCI (a b : Char) : Bool := lowerChar a = lowerChar b

def lowerL (l : List Char) : List Char := l.map lowerChar

/-- Case-insensitive literal match: on success return the rest of the input. -/
def dropLitCI : List Char → List Char → Option (List Char)
  | [], l => some l
  | _ :: _, [] => none
  | p :: ps, c :: cs => if chEqCI p c then dropLitCI ps cs else none

/-- Maximal run of `\w` characters (greedy `\w+`/`\w*`). -/
def takeWordRun : List Char → List Char × List Char
  | [] => ([], [])
  | c :: cs =>
    if isWordCh c then
      let (w, r) := takeWordRun cs
      (c :: w, r)
    else ([], c :: cs)

/-- Maximal run of `\d` characters (greedy `\d+`). -/
def takeDigitRun : List Char → List Char × List Char
  | [] => ([], [])
  | c :: cs =>
    if isDigitCh c then
      let (w, r) := takeDigitRun cs
      (c :: w, r)
    else ([], c :: cs)

/-- Maximal run of `\s` characters (greedy `\s*`). -/
def takeSpaceRun : List Char → List Char × List Char
  | [] => ([], [])
  | c :: cs =>
    if isSpaceCh c then
      let (w, r) := takeSpaceRun cs
      (c :: w, r)
    else ([], c :: cs)

/-- Maximal run of `[:\s]` characters (the `[:\s]+` / `[:\s]*` class). -/
def takeColonSpaceRun : List Char → List Char × List Char
  | [] => ([], [])
  | c :: cs =>
    if c = ':' || isSpaceCh c then
      let (w, r) := takeColonSpaceRun cs
      (c :: w, r)
    else ([], c :: cs)

/-- Python `str.strip()` (over the ASCII whitespace model). -/
def stripL (l : List Char) : List Char :=
  (((l.dropWhile (fun c => isSpaceCh c)).reverse.dropWhile
      (fun c => isSpaceCh c)).reverse)

def stripS (s : String) : String := String.mk (stripL s.data)

/-- Python `str.capitalize()`: first character upper-cased, rest lower-cased. -/
def capitalizeL : List Char → List Char
  | [] => []
  | c :: cs => upperChar c :: lowerL cs

/-- `pat` occurs at the head of `hay` (exact case). -/
def startsWith : List Char → List Char → Bool
  | _, [] => true
  | [], _ :: _ => false
  | c :: cs, p :: ps => p = c && startsWith cs ps

def containsSub (hay pat : List Char) : Bool :=
  match hay with
  | [] => pat.isEmpty
  | _ :: cs => startsWith hay pat || containsSub cs pat

/-- Value of a list of decimal digits, as Python `int()` on the matched group. -/
def digitsToNat (l : List Char) : Nat :=
  l.foldl (fun a c => 10 * a + (c.toNat - 48)) 0

def digitCh (n : Nat) : Char := Char.ofNat (48 + n)

/-- Decimal representation of a `Nat` (for f-string interpolation). -/
def natReprAux : Nat → Nat → List Char
  | 0, _ => []
  | fuel + 1, n => if n < 10 then [digitCh n] else natReprAux fuel (n / 10) ++ [digitCh (n % 10)]

def natReprL (n : Nat) : List Char := natReprAux (n + 1) n

/-- Python `f"{n:02d}"` for `n ≤ 99`. -/
def pad2 (n : Nat) : List Char := [digitCh (n / 10 % 10), digitCh (n % 10)]

/-- 4-digit zero-padded year, as `date.isoformat()` prints it. -/
def pad4 (n : Nat) : List Char :=
  [digitCh (n / 1000 % 10), digitCh (n / 100 % 10), digitCh (n / 10 % 10), digitCh (n % 10)]

/-! ## Dates: proleptic Gregorian calendar (Python `datetime.date`) -/

def isLeapYear (y : Nat) : Bool := (y % 4 = 0 && y % 100 ≠ 0) || y % 400 = 0

def daysInMonth (y m : Nat) : Nat :=
  if m = 2 then (if isLeapYear y then 29 else 28)
  else if m = 4 || m = 6 || m = 9 || m = 11 then 30
  else 31

/-- `datetime.date(y, m, d).toordinal()` (valid for `1 ≤ y`); the Hinnant
`days_from_civil` algorithm shifted so that 0001-01-01 = 1, as Python defines it. -/
def toOrdinal (y m d : Nat) : Nat :=
  let y' := if m ≤ 2 then y - 1 else y
  let era := y' / 400
  let yoe := y' % 400
  let mp := if 3 ≤ m then m - 3 else m + 9
  let doy := (153 * mp + 2) / 5 + d - 1
  let doe := yoe * 365 + yoe / 4 - yoe / 100 + doy
  era * 146097 + doe + 1 - 306

/-- Inverse of `toOrdinal` (the Hinnant `civil_from_days` algorithm). -/
def fromOrdinal (ord : Nat) : Nat × Nat × Nat :=
  let n := ord + 305
  let era := n / 146097
  let doe := n % 146097
  let yoe := (doe - doe / 1460 + doe / 36524 - doe / 146096) / 365
  let doy := doe - (365 * yoe + yoe / 4 - yoe / 100)
  let mp := (5 * doy + 2) / 153
  let d := doy - (153 * mp + 2) / 5 + 1
  let m := if mp < 10 then mp + 3 else mp - 9
  let y := yoe + era * 400 + (if m ≤ 2 then 1 else 0)
  (y, m, d)

/-- `datetime.date.max.toordinal()` = `date(9999, 12, 31).toordinal()`. -/
def maxOrdinal : Nat := 3652059

/-- `datetime.date.weekday()`: Monday = 0 … Sunday = 6. -/
def weekdayOfOrd (ord : Nat) : Nat := (ord + 6) % 7

/-- `date.isoformat()`: `YYYY-MM-DD`. -/
def isoDate (ord : Nat) : String :=
  let (y, m, d) := fromOrdinal ord
  String.mk (pad4 y ++ '-' :: pad2 m ++ '-' :: pad2 d)

/-- `datetime.combine(date, time(h, mi)).isoformat()`: `YYYY-MM-DDTHH:MM:SS`
(seconds printed, microseconds omitted when zero). -/
def isoDateTime (ord h mi : Nat) : String :=
  let (y, m, d) := fromOrdinal ord
  String.mk (pad4 y ++ '-' :: pad2 m ++ '-' :: pad2 d ++
    'T' :: pad2 h ++ ':' :: pad2 mi ++ ':' :: '0' :: ['0'])

def allDigits (l : List Char) : Bool := l.all (fun c => isDigitCh c)

/-- Valid `THH:MM:SS` suffix of an isoformat date-time. -/
def validTimeSuffix : List Char → Bool
  | 'T' :: h1 :: h2 :: ':' :: m1 :: m2 :: ':' :: s1 :: s2 :: [] =>
    allDigits [h1, h2, m1, m2, s1, s2] &&
      digitsToNat [h1, h2] ≤ 23 && digitsToNat [m1, m2] ≤ 59 && digitsToNat [s1, s2] ≤ 59
  | _ => false

/-- Model of `datetime.datetime.fromisoformat(s).date()` for the shapes the
program itself produces (`YYYY-MM-DD`, optionally with a `THH:MM:SS` time
part): `none` models the `ValueError` the real call raises on anything the
accepted grammar rejects.  (CPython accepts a few more ISO-8601 shapes; the
clauses the scorer can ever receive from this program are covered.) -/
def parseIsoDate (s : String) : Option Nat :=
  match s.data with
  | y1 :: y2 :: y3 :: y4 :: '-' :: m1 :: m2 :: '-' :: d1 :: d2 :: rest =>
    if allDigits [y1, y2, y3, y4, m1, m2, d1, d2] && (rest.isEmpty || validTimeSuffix rest) then
      let y := digitsToNat [y1, y2, y3, y4]
      let m := digitsToNat [m1, m2]
      let d := digitsToNat [d1, d2]
      if 1 ≤ y ∧ 1 ≤ m ∧ m ≤ 12 ∧ 1 ≤ d ∧ d ≤ daysInMonth y m then
        some (toOrdinal y m d)
      else none
    else none
  | _ => none

/-! ## The regular expressions of `parse_todo_input`, embedded

Each Python pattern becomes a pair of functions: a leftmost `search`
(scanning every start position, as `re.search` does) and, where the code
calls `re.sub` with an empty replacement, a `sub` that removes every non-overlapping
leftmost match.  The `sub` functions use fuel (`= length of the input`)
because they continue scanning after the removed span. -/

/-- One match of pattern 1, `every-(\w+)-(\d{1,2}):(\d{2})`. -/
structure P1M where
  day : List Char
  hour : Nat
  minute : Nat
  deriving DecidableEq, Repr

/-- `(\d{1,2}):(\d{2})` anchored at the head, one-digit-hour fallback:
reached when the two-digit try failed, exactly as the greedy `\d{1,2}`
backtracks. -/
def tryHM1 : List Char → Option (Nat × Nat)
  | a :: ':' :: c :: d :: _ =>
    if isDigitCh a && isDigitCh c && isDigitCh d then
      some (digitsToNat [a], digitsToNat [c, d])
    else none
  | _ => none

/-- `(\d{1,2}):(\d{2})` anchored at the head: the greedy `\d{1,2}` takes two
digits when a `:` follows them and `\d{2}` succeeds, else backtracks to one. -/
def tryHM (l : List Char) : Option (Nat × Nat) :=
  match l with
  | a :: b :: ':' :: c :: d :: _ =>
    if isDigitCh a && isDigitCh b && isDigitCh c && isDigitCh d then
      some (digitsToNat [a, b], digitsToNat [c, d])
    else tryHM1 l
  | _ => tryHM1 l

/-- Attempt pattern 1 anchored at the head of the input.  `\w+` is greedy
and `-` is not a word character, so the group is exactly the maximal word
run. -/
def tryP1At (l : List Char) : Option P1M :=
  match dropLitCI "every-".data l with
  | none => none
  | some r0 =>
    let (w, r1) := takeWordRun r0
    if w.isEmpty then none
    else
      match r1 with
      | '-' :: rest =>
        match tryHM rest with
        | some (h, mi) => some ⟨w, h, mi⟩
        | none => none
      | _ => none

/-- `re.search` of `every-(\w+)-(\d{1,2}):(\d{2})` with IGNORECASE. -/
def searchP1 : List Char → Option P1M
  | [] => none
  | c :: cs =>
    match tryP1At (c :: cs) with
    | some m => some m
    | none => searchP1 cs

/-- Characters consumed by `(\d{1,2}):(\d{2})` at the head (for `re.sub`). -/
def tryHMLen (l : List Char) : Option Nat :=
  match tryHM l with
  | none => none
  | some (h, _) => some (if h ≥ 10 then 5 else 4)

/-- `re.sub` spans of `\s*every-\w+-\d{1,2}:\d{2}`: the whitespace run is
maximal (a shorter run would leave a space where `e` is required), so a
match anchored here consumes run + literal + word run + time. -/
def trySubP1At (l : List Char) : Option (List Char) :=
  let (_, r) := takeSpaceRun l
  match dropLitCI "every-".data r with
  | none => none
  | some r0 =>
    let (w, r1) := takeWordRun r0
    if w.isEmpty then none
    else
      match r1 with
      | '-' :: rest =>
        match tryHMLen rest with
        | some n => some (rest.drop n)
        | none => none
      | _ => none

/-- Remove every non-overlapping leftmost match, as `re.sub` with an
empty replacement does.
Fuel is the input length: every step either removes a non-empty span or
emits one character. -/
def subScan (tryAt : List Char → Option (List Char)) : Nat → List Char → List Char
  | 0, l => l
  | _, [] => []
  | fuel + 1, c :: cs =>
    match tryAt (c :: cs) with
    | some rest => subScan tryAt fuel rest
    | none => c :: subScan tryAt fuel cs

def subAll (tryAt : List Char → Option (List Char)) (l : List Char) : List Char :=
  subScan tryAt l.length l

def subP1 (l : List Char) : List Char := subAll trySubP1At l

/-- `re.findall`-style scan: emit each group, resume after its match. -/
def findScan (tryAt : List Char → Option (List Char × List Char)) :
    Nat → List Char → List (List Char)
  | 0, _ => []
  | _, [] => []
  | fuel + 1, c :: cs =>
    match tryAt (c :: cs) with
    | some (a, rest) => a :: findScan tryAt fuel rest
    | none => findScan tryAt fuel cs

/-- `tag:(\w+)` anchored at the head: group and rest after the match. -/
def tryTagAt (l : List Char) : Option (List Char × List Char) :=
  match dropLitCI "tag:".data l with
  | none => none
  | some r0 =>
    let (w, r1) := takeWordRun r0
    if w.isEmpty then none else some (w, r1)

/-- `re.findall` of `tag:(\w+)` with IGNORECASE. -/
def findTags (l : List Char) : List (List Char) := findScan tryTagAt l.length l

/-- `\s*tag:\w+` spans for `re.sub`. -/
def trySubTagAt (l : List Char) : Option (List Char) :=
  let (_, r) := takeSpaceRun l
  match tryTagAt r with
  | some (_, rest) => some rest
  | none => none

def subTags (l : List Char) : List Char := subAll trySubTagAt l

/-- `every-day|daily` anchored at the head (alternation tries `every-day`
first); returns the rest after the match. -/
def tryDailyAt (l : List Char) : Option (List Char) :=
  match dropLitCI "every-day".data l with
  | some r => some r
  | none => dropLitCI "daily".data l

/-- Truthiness of `re.search(r'every-day|daily', text, re.IGNORECASE)`. -/
def searchDaily : List Char → Bool
  | [] => false
  | c :: cs => (tryDailyAt (c :: cs)).isSome || searchDaily cs

def subDaily (l : List Char) : List Char := subAll tryDailyAt l

/-- `every-(\d+)-(\w+)` anchored at the head: groups and the rest. -/
def tryEveryNAt (l : List Char) : Option ((List Char × List Char) × List Char) :=
  match dropLitCI "every-".data l with
  | none => none
  | some r0 =>
    let (ds, r1) := takeDigitRun r0
    if ds.isEmpty then none
    else
      match r1 with
      | '-' :: r2 =>
        let (w, r3) := takeWordRun r2
        if w.isEmpty then none else some ((ds, w), r3)
      | _ => none

/-- `re.search` of `every-(\d+)-(\w+)` with IGNORECASE. -/
def searchEveryN : List Char → Option (List Char × List Char)
  | [] => none
  | c :: cs =>
    match tryEveryNAt (c :: cs) with
    | some (g, _) => some g
    | none => searchEveryN cs

def subEveryN (l : List Char) : List Char :=
  subAll (fun l => (tryEveryNAt l).map (·.2)) l

/-- `in-(\d+)-(\w+)` anchored at the head. -/
def tryInNAt (l : List Char) : Option ((List Char × List Char) × List Char) :=
  match dropLitCI "in-".data l with
  | none => none
  | some r0 =>
    let (ds, r1) := takeDigitRun r0
    if ds.isEmpty then none
    else
      match r1 with
      | '-' :: r2 =>
        let (w, r3) := takeWordRun r2
        if w.isEmpty then none else some ((ds, w), r3)
      | _ => none

/-- `re.search` of `in-(\d+)-(\w+)` with IGNORECASE. -/
def searchInN : List Char → Option (List Char × List Char)
  | [] => none
  | c :: cs =>
    match tryInNAt (c :: cs) with
    | some (g, _) => some g
    | none => searchInN cs

def subInN (l : List Char) : List Char :=
  subAll (fun l => (tryInNAt l).map (·.2)) l

/-- `\d{4}-\d{2}-\d{2}` anchored at the head: the ten matched characters
and the rest. -/
def tryDateLitAt : List Char → Option (List Char × List Char)
  | y1 :: y2 :: y3 :: y4 :: '-' :: m1 :: m2 :: '-' :: d1 :: d2 :: rest =>
    if allDigits [y1, y2, y3, y4, m1, m2, d1, d2] then
      some ([y1, y2, y3, y4, '-', m1, m2, '-', d1, d2], rest)
    else none
  | _ => none

/-- `deadline[:\s]+(\d{4}-\d{2}-\d{2})` anchored at the head (`[:\s]+` is
greedy; no shorter run can be followed by a digit). -/
def tryDeadlineAt (l : List Char) : Option (List Char × List Char) :=
  match dropLitCI "deadline".data l with
  | none => none
  | some r0 =>
    let (run, r1) := takeColonSpaceRun r0
    if run.isEmpty then none else tryDateLitAt r1

/-- `re.search` of `deadline[:\s]+(\d{4}-\d{2}-\d{2})` with IGNORECASE. -/
def searchDeadline : List Char → Option (List Char)
  | [] => none
  | c :: cs =>
    match tryDeadlineAt (c :: cs) with
    | some (g, _) => some g
    | none => searchDeadline cs

/-- The sub pattern differs from the search pattern: `[:\s]*` (star). -/
def trySubDeadlineAt (l : List Char) : Option (List Char) :=
  match dropLitCI "deadline".data l with
  | none => none
  | some r0 =>
    let (_, r1) := takeColonSpaceRun r0
    (tryDateLitAt r1).map (·.2)

def subDeadline (l : List Char) : List Char := subAll trySubDeadlineAt l

/-- `priority[:=]\s*(high|medium|low)` anchored at the head; the group is
returned already lower-cased (the code applies `.lower()` to it). -/
def tryPriorityAt (l : List Char) : Option (String × List Char) :=
  match dropLitCI "priority".data l with
  | none => none
  | some r0 =>
    match r0 with
    | c :: r1 =>
      if c = ':' || c = '=' then
        let (_, r2) := takeSpaceRun r1
        match dropLitCI "high".data r2 with
        | some r3 => some ("high", r3)
        | none =>
          match dropLitCI "medium".data r2 with
          | some r3 => some ("medium", r3)
          | none =>
            match dropLitCI "low".data r2 with
            | some r3 => some ("low", r3)
            | none => none
      else none
    | [] => none

/-- `re.search` of `priority[:=]\s*(high|medium|low)` with IGNORECASE. -/
def searchPriority : List Char → Option String
  | [] => none
  | c :: cs =>
    match tryPriorityAt (c :: cs) with
    | some (g, _) => some g
    | none => searchPriority cs

def subPriority (l : List Char) : List Char :=
  subAll (fun l => (tryPriorityAt l).map (·.2)) l

/-! ## `parse_todo_input` -/

/-- The Todo Intent dictionary built by `parse_todo_input`. -/
structure TodoIntent where
  content : String
  type : String
  frequency : Option String
  next_due : Option String
  deadline : Option String
  priority : String
  tags : List String
  deriving DecidableEq, Repr

/-- The `days_map` dictionary of pattern 1. -/
def daysMap (s : String) : Option Nat :=
  if s = "monday" then some 0
  else if s = "tuesday" then some 1
  else if s = "wednesday" then some 2
  else if s = "thursday" then some 3
  else if s = "friday" then some 4
  else if s = "saturday" then some 5
  else if s = "sunday" then some 6
  else none

/-- `days_ahead`: `(target_day - current_day) % 7`, bumped to 7 when zero
(the Python `%` on a possibly negative difference is the same as adding 7
first when both arguments are reduced mod 7). -/
def dayAhead (today target : Nat) : Nat :=
  let wd := weekdayOfOrd today
  let d0 := (target + 7 - wd) % 7
  if d0 = 0 then 7 else d0

/-- `f"every-{day.capitalize()}-{hour:02d}:{minute:02d}"` of pattern 1
(`day` being the lower-cased group). -/
def freqStrP1 (m : P1M) : String :=
  String.mk ("every-".data ++ capitalizeL (lowerL m.day) ++
    '-' :: pad2 m.hour ++ ':' :: pad2 m.minute)

/-- Pattern-1 branch of `parse_todo_input` (lines 403–432). -/
def p1Branch (tcs : List Char) (today : Nat) (tags : List String) (m : P1M) :
    Except String TodoIntent :=
  let day := lowerL m.day
  let base : TodoIntent :=
    ⟨String.mk (stripL (subP1 tcs)), "recurring", some (freqStrP1 m), none, none, "medium", tags⟩
  match daysMap (String.mk day) with
  | none => .ok base
  | some t =>
    let nd := today + dayAhead today t
    if maxOrdinal < nd then .error "OverflowError: date value out of range"
    else if 23 < m.hour ∨ 59 < m.minute then .error "ValueError: invalid time"
    else .ok { base with next_due := some (isoDateTime nd m.hour m.minute) }

/-- `timedelta` days for a recognized unit (`none` = unknown unit, in which
case the code falls back to `next_date = today` with no `timedelta` at all). -/
def unitDelta (unit : String) (n : Nat) : Option Nat :=
  if unit = "day" ∨ unit = "days" then some n
  else if unit = "week" ∨ unit = "weeks" then some (7 * n)
  else if unit = "month" ∨ unit = "months" then some (30 * n)
  else none

/-- `timedelta` magnitude bound: `timedelta(days=n)` raises `OverflowError`
for `n > 999999999`. -/
def maxTimedeltaDays : Nat := 999999999

/-- Pattern-3 branch (`every-<N>-<unit>`, lines 444–464). -/
def p3Branch (tcs : List Char) (today : Nat) (tags : List String)
    (ds w : List Char) : Except String TodoIntent :=
  let number := digitsToNat ds
  let unit := String.mk (lowerL w)
  let freq := String.mk ("every-".data ++ natReprL number ++ '-' :: (lowerL w))
  let content := String.mk (stripL (subEveryN tcs))
  match unitDelta unit number with
  | none =>
    .ok ⟨content, "recurring", some freq, some (isoDate today), none, "medium", tags⟩
  | some delta =>
    if maxTimedeltaDays < delta then .error "OverflowError: timedelta out of range"
    else if maxOrdinal < today + delta then .error "OverflowError: date value out of range"
    else .ok ⟨content, "recurring", some freq, some (isoDate (today + delta)), none, "medium", tags⟩

/-- Pattern-4 branch (`in-<N>-<unit>`, lines 468–487). -/
def p4Branch (tcs : List Char) (today : Nat) (tags : List String)
    (ds w : List Char) : Except String TodoIntent :=
  let number := digitsToNat ds
  let unit := String.mk (lowerL w)
  let content := String.mk (stripL (subInN tcs))
  match unitDelta unit number with
  | none =>
    .ok ⟨content, "future", none, some (isoDate today), some (isoDate today), "medium", tags⟩
  | some delta =>
    if maxTimedeltaDays < delta then .error "OverflowError: timedelta out of range"
    else if maxOrdinal < today + delta then .error "OverflowError: date value out of range"
    else .ok ⟨content, "future", none, some (isoDate (today + delta)),
      some (isoDate (today + delta)), "medium", tags⟩

/-- `parse_todo_input(text)` (lines 372–506), with `today` =
`datetime.date.today().toordinal()` made explicit.  `Except.error` models
an uncaught Python exception (the function has no try/except). -/
def parse_todo_input (text : String) (today : Nat) : Except String TodoIntent :=
  let tcs := text.data
  let tags := (findTags tcs).map (fun w => String.mk (lowerL w))
  match searchP1 tcs with
  | some m => p1Branch tcs today tags m
  | none =>
    if searchDaily tcs then
      .ok ⟨String.mk (stripL (subDaily tcs)), "recurring", some "daily",
        some (isoDate today), none, "medium", tags⟩
    else
      match searchEveryN tcs with
      | some (ds, w) => p3Branch tcs today tags ds w
      | none =>
        match searchInN tcs with
        | some (ds, w) => p4Branch tcs today tags ds w
        | none =>
          match searchDeadline tcs with
          | some dstr =>
            .ok ⟨String.mk (stripL (subDeadline tcs)), "one-time", none, none,
              some (String.mk dstr), "medium", tags⟩
          | none =>
            let pr := searchPriority tcs
            let content1 :=
              match pr with
              | some _ => stripL (subPriority tcs)
              | none => stripL tcs
            .ok ⟨String.mk (stripL (subTags content1)), "one-time", none, none, none,
              pr.getD "medium", tags⟩

/-! ## `calculate_urgency_score` -/

/-- The fields of a stored todo dictionary that the scorer reads
(`todo["type"]`, `todo["frequency"]`, `todo.get("deadline")`,
`todo.get("next_due")`); the sheet layer supplies strings, `""` being the
falsy "absent" value. -/
structure StoredTodo where
  type : String
  frequency : String
  deadline : String
  next_due : String
  deriving DecidableEq, Repr

/-- The `frequency_map` dictionary, in insertion (= iteration) order. -/
def frequencyMap : List (String × Nat) :=
  [("daily", 100), ("every-1-day", 100), ("every-monday", 70), ("every-tuesday", 70),
   ("every-wednesday", 70), ("every-thursday", 70), ("every-friday", 80),
   ("every-saturday", 50), ("every-sunday", 50), ("every-1-week", 70),
   ("every-2-week", 50), ("every-1-month", 30)]

/-- First map entry whose key is a substring of the frequency (`key in ...`),
scanning in insertion order; 0 when nothing matches. -/
def freqLookup : List (String × Nat) → List Char → Nat
  | [], _ => 0
  | (k, v) :: rest, f => if containsSub f k.data then v else freqLookup rest f

/-- The `frequency_score` computed by lines 517–537. -/
def frequency_score (todo : StoredTodo) : Nat :=
  if todo.type = "recurring" ∧ todo.frequency ≠ "" then
    freqLookup frequencyMap (lowerL todo.frequency.data)
  else 0

/-- The `days_until` buckets of lines 546–559. -/
def bucketScore (days : Int) : Nat :=
  if days ≤ 0 then 100
  else if days ≤ 1 then 95
  else if days ≤ 3 then 80
  else if days ≤ 7 then 60
  else if days ≤ 14 then 40
  else if days ≤ 30 then 20
  else 5

/-- The string the scorer feeds to `fromisoformat`:
`todo.get("deadline") or todo.get("next_due")`. -/
def selectedDeadlineStr (todo : StoredTodo) : String :=
  if todo.deadline ≠ "" then todo.deadline else todo.next_due

/-- The `deadline_score` computed by lines 540–561; the `try/except` around
`fromisoformat` is the `none` case (score contribution 0). -/
def deadline_score (todo : StoredTodo) (today : Nat) : Nat :=
  if todo.deadline ≠ "" ∨ todo.next_due ≠ "" then
    match parseIsoDate (selectedDeadlineStr todo) with
    | none => 0
    | some d => bucketScore ((d : Int) - (today : Int))
  else 0

/-- `calculate_urgency_score` (lines 508–565).  The code computes
`int(frequency_score * 0.4 + deadline_score * 0.6)` in binary floating
point; for every value the two components can take
(`frequency_score ∈ {0,30,50,70,80,100}`, `deadline_score ∈
{0,5,20,40,60,80,95,100}`) the rounded double result is exactly the
integer `(2·f + 3·d)/5`, so the exact `Nat` computation below agrees with
the float computation on every reachable input. -/
def calculate_urgency_score (todo : StoredTodo) (today : Nat) : Nat :=
  (2 * frequency_score todo + 3 * deadline_score todo today) / 5

/-! ## `parse_event_input` -/

/-- The slice of a `datetime.datetime` this parser manipulates: the date
ordinal plus the `hour`/`minute` fields that `dt.replace(...)` overwrites. -/
structure PyDateTime where
  ord : Nat
  hour : Nat
  minute : Nat
  deriving DecidableEq, Repr

/-- The `{success, datetime, title, error}` result dictionary (absent keys
modelled as `none` / `""`). -/
structure EventResult where
  success : Bool
  datetime : Option PyDateTime
  title : String
  error : String
  deriving DecidableEq, Repr

/-- Exact-case literal match (the time regex has no `re.IGNORECASE`). -/
def dropLit : List Char → List Char → Option (List Char)
  | [], l => some l
  | _ :: _, [] => none
  | p :: ps, c :: cs => if p = c then dropLit ps cs else none

/-- The optional `(?:\s*(?:AM|PM|am|pm))?` tail: maximal whitespace run,
then one of the four exact-case alternatives. -/
def tryAmPm (l : List Char) : Option (List Char) :=
  let (ws, r1) := takeSpaceRun l
  if (dropLit "AM".data r1).isSome then some (ws ++ "AM".data)
  else if (dropLit "PM".data r1).isSome then some (ws ++ "PM".data)
  else if (dropLit "am".data r1).isSome then some (ws ++ "am".data)
  else if (dropLit "pm".data r1).isSome then some (ws ++ "pm".data)
  else none

/-- `(\d{1,2}:\d{2}(?:\s*(?:AM|PM|am|pm))?)` anchored at the head: the
matched token. -/
def tryTimeAt (l : List Char) : Option (List Char) :=
  match tryHMLen l with
  | none => none
  | some n =>
    let base := l.take n
    match tryAmPm (l.drop n) with
    | some ext => some (base ++ ext)
    | none => some base

/-- `re.search` for the time token (line 645). -/
def searchTime : List Char → Option (List Char)
  | [] => none
  | c :: cs =>
    match tryTimeAt (c :: cs) with
    | some t => some t
    | none => searchTime cs

/-- The weekday alternatives of the date regex, in alternation order. -/
def wdNames : List String :=
  ["Monday", "Tuesday", "Wednesday", "Thursday", "Friday", "Saturday", "Sunday"]

/-- A weekday name (case-insensitive) anchored at the head: the matched
characters as they appear in the text, and the rest. -/
def matchWDAt (l : List Char) : Option (List Char × List Char) :=
  (wdNames.map String.data).foldr
    (fun nm acc =>
      match dropLitCI nm l with
      | some rest => some (l.take nm.length, rest)
      | none => acc)
    none

/-- The optional `(?:at\s*\d{1,2}:\d{2})?` immediately after the weekday:
the lazy `.*?` between them never expands because the optional group can
always match empty, so the group matches only when `at...` starts right
after the weekday name. -/
def tryAtTime (l : List Char) : Option (List Char × List Char) :=
  match dropLitCI "at".data l with
  | none => none
  | some r1 =>
    let (ws, r2) := takeSpaceRun r1
    match tryHMLen r2 with
    | none => none
    | some n => some ("at".data ++ ws ++ r2.take n, r2.drop n)

/-- One match of the date regex (line 652) anchored at the head: `group(1)`
and the rest of the text after `match.end()`. -/
def matchDatePhraseAt (l : List Char) : Option (List Char × List Char) :=
  match matchWDAt l with
  | none => none
  | some (tok, rest) =>
    match tryAtTime rest with
    | some (ext, rest2) => some (tok ++ ext, rest2)
    | none => some (tok, rest)

/-- `re.search` for the weekday-led date phrase. -/
def searchDatePhrase : List Char → Option (List Char × List Char)
  | [] => none
  | c :: cs =>
    match matchDatePhraseAt (c :: cs) with
    | some r => some r
    | none => searchDatePhrase cs

/-- `parse_event_input(text)` (lines 641–677).  `dparse` stands for
`dateutil.parser.parse(·, fuzzy=True)`, an external library call: `none`
models the exception its failure raises, which the inner `try/except`
turns into the "Could not parse date" failure.  Every branch returns a
structured result; the outer `try/except` has nothing left to catch. -/
def parse_event_input (dparse : String → Option PyDateTime) (text : String) :
    EventResult :=
  let timeTok := searchTime text.data
  match searchDatePhrase text.data with
  | none => ⟨false, none, "", "Could not find date in input"⟩
  | some (datePart, rest) =>
    let title := String.mk (stripL rest)
    match dparse (String.mk (stripL datePart)) with
    | none => ⟨false, none, "", "Could not parse date"⟩
    | some dt =>
      match timeTok with
      | none => ⟨true, some dt, if title = "" then "Calendar Event" else title, ""⟩
      | some ts =>
        match dparse (String.mk ts) with
        | none => ⟨false, none, "", "Could not parse date"⟩
        | some tp =>
          ⟨true, some { dt with hour := tp.hour, minute := tp.minute },
            if title = "" then "Calendar Event" else title, ""⟩

/-! ## `add_todo` / `update_todo_status` (the columns they touch)

`add_todo` appends the row
`[id, content, "pending", "0", created_at, "", deadline, type, frequency,
"", priority, tags]`; `update_todo_status` writes 1-based columns 3
(status), 4 (completed) and — only when given a truthy value and the
status is "done" — 6 (completed_at).  Only those three columns matter to
the stored-todo invariant, so the row model carries exactly them. -/

structure TodoRow where
  status : String
  completed : String
  completed_at : String
  deriving DecidableEq, Repr

/-- The status columns of a row freshly written by `add_todo`. -/
def addTodoRow : TodoRow := ⟨"pending", "0", ""⟩

/-- `update_todo_status(row_num, status, completed_at)` on one row. -/
def update_todo_status (status : String) (completed_at : Option String)
    (r : TodoRow) : TodoRow :=
  let r1 := { r with status := status }
  if status = "done" then
    let r2 := { r1 with completed := "1" }
    match completed_at with
    | some s => if s ≠ "" then { r2 with completed_at := s } else r2
    | none => r2
  else { r1 with completed := "0" }

/-- A sequence of `update_todo_status` calls applied to one row. -/
def applyUpdates (us : List (String × Option String)) (r : TodoRow) : TodoRow :=
  us.foldl (fun r u => update_todo_status u.1 u.2 r) r

/-- The stored-todo invariant of the specification. -/
def rowInvariant (r : TodoRow) : Prop :=
  (r.completed = "1" ↔ r.status = "done") ∧ (r.completed_at ≠ "" ↔ r.status = "done")

instance (r : TodoRow) : Decidable (rowInvariant r) := by
  unfold rowInvariant; infer_instance

/-- Did the modelled call raise (propagate an exception)? -/
def isErr {ε α : Type} : Except ε α → Bool
  | .error _ => true
  | .ok _ => false

/-! ## Helper lemmas -/

/-- Properties of `days_ahead`: always between 1 and 7, lands on the target
weekday, and is exactly 7 when today already is the target weekday. -/
theorem dayAhead_spec (today t : Nat) (ht : t < 7) :
    1 ≤ dayAhead today t ∧ dayAhead today t ≤ 7 ∧
      weekdayOfOrd (today + dayAhead today t) = t ∧
      (weekdayOfOrd today = t → dayAhead today t = 7) := by
  simp only [dayAhead, weekdayOfOrd]
  split <;> omega

/-- `days_map` only produces weekday indices `0 … 6`. -/
theorem daysMap_lt (s : String) (t : Nat) (h : daysMap s = some t) : t < 7 := by
  unfold daysMap at h
  split_ifs at h <;> simp_all <;> omega

/-- Pattern-1 branch on a recognized weekday with a valid time and an
in-range next date. -/
theorem p1Branch_ok (tcs : List Char) (today : Nat) (tags : List String) (m : P1M)
    (t : Nat) (hd : daysMap (String.mk (lowerL m.day)) = some t)
    (hh : m.hour ≤ 23) (hm : m.minute ≤ 59) (ho : today + 7 ≤ maxOrdinal) :
    p1Branch tcs today tags m =
      .ok ⟨String.mk (stripL (subP1 tcs)), "recurring", some (freqStrP1 m),
        some (isoDateTime (today + dayAhead today t) m.hour m.minute), none, "medium",
        tags⟩ := by
  have ht : t < 7 := daysMap_lt _ _ hd
  have hda := dayAhead_spec today t ht
  simp only [p1Branch]
  rw [hd]
  dsimp only
  rw [if_neg (by omega), if_neg (by omega)]

/-- Unfolding `parse_todo_input` when pattern 1 matches. -/
theorem parse_p1 (text : String) (today : Nat) (m : P1M)
    (hs : searchP1 text.data = some m) :
    parse_todo_input text today =
      p1Branch text.data today ((findTags text.data).map (fun w => String.mk (lowerL w))) m := by
  simp only [parse_todo_input]
  rw [hs]

/-- Unfolding `parse_todo_input` when only pattern 2 matches. -/
theorem parse_daily (text : String) (today : Nat)
    (hs1 : searchP1 text.data = none) (hs2 : searchDaily text.data = true) :
    parse_todo_input text today =
      .ok ⟨String.mk (stripL (subDaily text.data)), "recurring", some "daily",
        some (isoDate today), none, "medium",
        (findTags text.data).map (fun w => String.mk (lowerL w))⟩ := by
  simp only [parse_todo_input, hs1, hs2, if_true]

/-- Unfolding `parse_todo_input` when pattern 3 is the first to match. -/
theorem parse_p3 (text : String) (today : Nat) (ds w : List Char)
    (hs1 : searchP1 text.data = none) (hs2 : searchDaily text.data = false)
    (hs3 : searchEveryN text.data = some (ds, w)) :
    parse_todo_input text today =
      p3Branch text.data today ((findTags text.data).map (fun w => String.mk (lowerL w))) ds w := by
  simp only [parse_todo_input, hs1, hs2, hs3, Bool.false_eq_true, if_false]

/-- Unfolding `parse_todo_input` when pattern 4 is the first to match. -/
theorem parse_p4 (text : String) (today : Nat) (ds w : List Char)
    (hs1 : searchP1 text.data = none) (hs2 : searchDaily text.data = false)
    (hs3 : searchEveryN text.data = none) (hs4 : searchInN text.data = some (ds, w)) :
    parse_todo_input text today =
      p4Branch text.data today ((findTags text.data).map (fun w => String.mk (lowerL w))) ds w := by
  simp only [parse_todo_input, hs1, hs2, hs3, hs4, Bool.false_eq_true, if_false]

/-- Unfolding `parse_todo_input` when pattern 5 is the first to match. -/
theorem parse_p5 (text : String) (today : Nat) (dstr : List Char)
    (hs1 : searchP1 text.data = none) (hs2 : searchDaily text.data = false)
    (hs3 : searchEveryN text.data = none) (hs4 : searchInN text.data = none)
    (hs5 : searchDeadline text.data = some dstr) :
    parse_todo_input text today =
      .ok ⟨String.mk (stripL (subDeadline text.data)), "one-time", none, none,
        some (String.mk dstr), "medium",
        (findTags text.data).map (fun w => String.mk (lowerL w))⟩ := by
  simp only [parse_todo_input, hs1, hs2, hs3, hs4, hs5, Bool.false_eq_true, if_false]

/-- Unfolding `parse_todo_input` on the default/priority path. -/
theorem parse_default (text : String) (today : Nat)
    (hs1 : searchP1 text.data = none) (hs2 : searchDaily text.data = false)
    (hs3 : searchEveryN text.data = none) (hs4 : searchInN text.data = none)
    (hs5 : searchDeadline text.data = none) :
    parse_todo_input text today =
      .ok ⟨String.mk (stripL (subTags
          (match searchPriority text.data with
           | some _ => stripL (subPriority text.data)
           | none => stripL text.data))), "one-time", none, none, none,
        (searchPriority text.data).getD "medium",
        (findTags text.data).map (fun w => String.mk (lowerL w))⟩ := by
  simp only [parse_todo_input, hs1, hs2, hs3, hs4, hs5, Bool.false_eq_true, if_false]

/-- `freqLookup` only returns table values (all ≤ 100) or 0. -/
theorem freqLookup_le (L : List (String × Nat)) (f : List Char)
    (h : ∀ p ∈ L, p.2 ≤ 100) : freqLookup L f ≤ 100 := by
  induction L with
  | nil => simp [freqLookup]
  | cons p rest ih =>
    obtain ⟨k, v⟩ := p
    unfold freqLookup
    split
    · exact h (k, v) (List.mem_cons_self _ _)
    · exact ih fun q hq => h q (List.mem_cons_of_mem _ hq)

theorem frequency_score_le (todo : StoredTodo) : frequency_score todo ≤ 100 := by
  unfold frequency_score
  split
  · exact freqLookup_le _ _ (by decide)
  · omega

theorem bucketScore_le (days : Int) : bucketScore days ≤ 100 := by
  unfold bucketScore
  split_ifs <;> omega

theorem deadline_score_le (todo : StoredTodo) (today : Nat) :
    deadline_score todo today ≤ 100 := by
  unfold deadline_score
  split
  · rcases h : parseIsoDate (selectedDeadlineStr todo) with _ | d <;> simp [h]
    exact bucketScore_le _
  · omega

/-- Natural division by 5 is the rational floor of the 2/5–3/5 blend. -/
theorem natDiv_floor (a b : ℕ) :
    (((2 * a + 3 * b) / 5 : ℕ) : ℤ) = ⌊((a : ℚ) * (2 / 5) + (b : ℚ) * (3 / 5))⌋ := by
  have h1 : (a : ℚ) * (2 / 5) + (b : ℚ) * (3 / 5) = ((2 * a + 3 * b : ℕ) : ℚ) / ((5 : ℕ) : ℚ) := by
    push_cast
    ring
  rw [h1]
  rw [show ((2 * a + 3 * b) / 5 : ℕ) = ⌊((2 * a + 3 * b : ℕ) : ℚ) / ((5 : ℕ) : ℚ)⌋₊ from
    (Nat.floor_div_eq_div _ _).symm]
  exact Int.natCast_floor_eq_floor (by positivity)

/-! ## Claim C5 -/

/-- C5: for every todo record, `calculate_urgency_score` returns an integer
in [0, 100] equal to the floor of `frequency_score * 0.4 +
deadline_score * 0.6` (the `Nat` result is trivially ≥ 0), and the
frequency component is non-zero only for a recurring todo with a
(truthy) frequency. -/
theorem C5_score_contract (todo : StoredTodo) (today : Nat) :
    calculate_urgency_score todo today ≤ 100 ∧
    ((calculate_urgency_score todo today : ℤ) =
      ⌊((frequency_score todo : ℚ) * (2 / 5) + (deadline_score todo today : ℚ) * (3 / 5))⌋) ∧
    (frequency_score todo ≠ 0 → todo.type = "recurring" ∧ todo.frequency ≠ "") := by
  refine ⟨?_, ?_, ?_⟩
  · have h1 := frequency_score_le todo
    have h2 := deadline_score_le todo today
    unfold calculate_urgency_score
    omega
  · exact natDiv_floor _ _
  · unfold frequency_score
    split
    · intro _
      assumption
    · intro hne
      exact absurd rfl hne

/-- Witness for C5 at a concrete recurring daily todo due today. -/
theorem C5_score_contract_witness :
    calculate_urgency_score ⟨"recurring", "daily", "", "2025-10-12"⟩ 739536 ≤ 100 ∧
    ((calculate_urgency_score ⟨"recurring", "daily", "", "2025-10-12"⟩ 739536 : ℤ) =
      ⌊((frequency_score ⟨"recurring", "daily", "", "2025-10-12"⟩ : ℚ) * (2 / 5) +
        (deadline_score ⟨"recurring", "daily", "", "2025-10-12"⟩ 739536 : ℚ) * (3 / 5))⌋) ∧
    (frequency_score ⟨"recurring", "daily", "", "2025-10-12"⟩ ≠ 0 →
      (StoredTodo.mk "recurring" "daily" "" "2025-10-12").type = "recurring" ∧
      (StoredTodo.mk "recurring" "daily" "" "2025-10-12").frequency ≠ "") :=
  C5_score_contract ⟨"recurring", "daily", "", "2025-10-12"⟩ 739536

/-! ## Claim C6 -/

/-- C6: the deadline component follows the fixed days-until-due buckets,
and a one-time todo whose selected date is exactly 10 days out scores
`deadline_score = 40`, `frequency_score = 0`, total 24. -/
theorem C6_deadline_buckets (todo : StoredTodo) (today : Nat) (d : Nat)
    (hp : parseIsoDate (selectedDeadlineStr todo) = some d) :
    ((d : Int) - today ≤ 0 → deadline_score todo today = 100) ∧
    ((d : Int) - today = 1 → deadline_score todo today = 95) ∧
    (2 ≤ (d : Int) - today ∧ (d : Int) - today ≤ 3 → deadline_score todo today = 80) ∧
    (4 ≤ (d : Int) - today ∧ (d : Int) - today ≤ 7 → deadline_score todo today = 60) ∧
    (8 ≤ (d : Int) - today ∧ (d : Int) - today ≤ 14 → deadline_score todo today = 40) ∧
    (15 ≤ (d : Int) - today ∧ (d : Int) - today ≤ 30 → deadline_score todo today = 20) ∧
    (30 < (d : Int) - today → deadline_score todo today = 5) ∧
    (todo.type = "one-time" → (d : Int) - today = 10 →
      deadline_score todo today = 40 ∧ frequency_score todo = 0 ∧
        calculate_urgency_score todo today = 24) := by
  have hguard : todo.deadline ≠ "" ∨ todo.next_due ≠ "" := by
    by_contra hcon
    push_neg at hcon
    obtain ⟨h1, h2⟩ := hcon
    rw [selectedDeadlineStr, if_neg (by simp [h1]), h2] at hp
    exact Option.noConfusion (show (none : Option Nat) = some d from hp)
  have hds : deadline_score todo today = bucketScore ((d : Int) - today) := by
    unfold deadline_score
    rw [if_pos hguard, hp]
  have hb : ∀ days : Int, bucketScore days =
      if days ≤ 0 then 100 else if days ≤ 1 then 95 else if days ≤ 3 then 80
      else if days ≤ 7 then 60 else if days ≤ 14 then 40 else if days ≤ 30 then 20
      else 5 := fun _ => rfl
  refine ⟨?_, ?_, ?_, ?_, ?_, ?_, ?_, ?_⟩
  · intro h
    rw [hds, hb]
    split_ifs
    omega
  · intro h
    rw [hds, hb]
    split_ifs <;> omega
  · intro h
    rw [hds, hb]
    split_ifs <;> omega
  · intro h
    rw [hds, hb]
    split_ifs <;> omega
  · intro h
    rw [hds, hb]
    split_ifs <;> omega
  · intro h
    rw [hds, hb]
    split_ifs <;> omega
  · intro h
    rw [hds, hb]
    split_ifs <;> omega
  · intro hty hdays
    have h40 : deadline_score todo today = 40 := by
      rw [hds, hb]
      split_ifs <;> omega
    have hfs : frequency_score todo = 0 := by
      unfold frequency_score
      rw [if_neg]
      rintro ⟨hr, _⟩
      rw [hty] at hr
      exact absurd hr (by decide)
    refine ⟨h40, hfs, ?_⟩
    unfold calculate_urgency_score
    rw [h40, hfs]

/-- Witness for C6: deadline 2025-10-22 seen from 2025-10-12 (ordinal
739536) is 10 days out, scoring 24 overall. -/
theorem C6_deadline_buckets_witness :
    parseIsoDate (selectedDeadlineStr ⟨"one-time", "", "2025-10-22", ""⟩) = some 739546 ∧
    (deadline_score ⟨"one-time", "", "2025-10-22", ""⟩ 739536 = 40 ∧
      frequency_score ⟨"one-time", "", "2025-10-22", ""⟩ = 0 ∧
      calculate_urgency_score ⟨"one-time", "", "2025-10-22", ""⟩ 739536 = 24) :=
  ⟨by decide,
    (C6_deadline_buckets ⟨"one-time", "", "2025-10-22", ""⟩ 739536 739546
      (by decide)).2.2.2.2.2.2.2 rfl (by decide)⟩

/-! ## Claim C9 -/

/-- C9 counterexample: `update_todo_status(row, "done", None)` marks the
row done without any `completed_at`, so the claimed invariant fails after
this legal call sequence. -/
theorem C9_counterexample_done_without_ts :
    ¬ rowInvariant (applyUpdates [("done", none)] addTodoRow) := by
  decide

theorem update_done_ts (s : String) (hs : s ≠ "") (r : TodoRow) :
    update_todo_status "done" (some s) r = ⟨"done", "1", s⟩ := by
  unfold update_todo_status
  simp [hs]

theorem applyUpdates_inv (us : List (String × Option String)) (r : TodoRow)
    (hr : rowInvariant r)
    (hus : ∀ u ∈ us, u.1 = "done" ∧ u.2 ≠ none ∧ u.2 ≠ some "") :
    rowInvariant (applyUpdates us r) := by
  induction us generalizing r with
  | nil => exact hr
  | cons u rest ih =>
    obtain ⟨st, ca⟩ := u
    obtain ⟨h1, h2, h3⟩ := hus (st, ca) (List.mem_cons_self _ _)
    rcases ca with _ | s
    · exact absurd rfl h2
    · have hs : s ≠ "" := by
        intro h
        rw [h] at h3
        exact h3 rfl
      subst h1
      show rowInvariant (applyUpdates rest (update_todo_status "done" (some s) r))
      rw [update_done_ts s hs r]
      exact ih _ ⟨⟨fun _ => rfl, fun _ => rfl⟩, ⟨fun _ => rfl, fun _ => hs⟩⟩
        fun q hq => hus q (List.mem_cons_of_mem _ hq)

/-- C9 amended: the invariant holds at creation; `completed` mirrors
`status == "done"` after every call whatever its arguments; and the full
invariant (including `completed_at`) is preserved by any sequence of calls
of the only shape the program issues — `status = "done"` with a non-empty
timestamp. -/
theorem C9_invariant_amended :
    rowInvariant addTodoRow ∧
    (∀ (st : String) (ca : Option String) (r : TodoRow),
      (update_todo_status st ca r).completed = "1" ↔
        (update_todo_status st ca r).status = "done") ∧
    (∀ us : List (String × Option String),
      (∀ u ∈ us, u.1 = "done" ∧ u.2 ≠ none ∧ u.2 ≠ some "") →
        rowInvariant (applyUpdates us addTodoRow)) := by
  refine ⟨by decide, ?_, ?_⟩
  · intro st ca r
    unfold update_todo_status
    by_cases h : st = "done"
    · rw [if_pos h]
      rcases ca with _ | s
      · exact ⟨fun _ => h, fun _ => rfl⟩
      · dsimp only
        split
        · exact ⟨fun _ => h, fun _ => rfl⟩
        · exact ⟨fun _ => h, fun _ => rfl⟩
    · rw [if_neg h]
      exact ⟨fun habs => absurd (show ("0" : String) = "1" from habs) (by decide),
        fun habs => absurd habs h⟩
  · intro us hus
    exact applyUpdates_inv us addTodoRow (by decide) hus

/-- Witness for C9: one program-shaped update keeps the invariant. -/
theorem C9_invariant_amended_witness :
    rowInvariant (applyUpdates [("done", some "2025-10-12T09:00:00")] addTodoRow) :=
  C9_invariant_amended.2.2 [("done", some "2025-10-12T09:00:00")] (by decide)

/-! ## Claim C1 -/

/-- Whatever pattern fires, the pattern-1 branch returns the tags it was
given (set once before any pattern is tried). -/
theorem p1Branch_tags {tcs : List Char} {today : Nat} {tags : List String}
    {m : P1M} {r : TodoIntent}
    (h : (p1Branch tcs today tags m).toOption = some r) : r.tags = tags := by
  simp only [p1Branch] at h
  split at h
  · simp only [Except.toOption] at h
    injection h with h
    subst h
    rfl
  · split at h
    · simp [Except.toOption] at h
    · split at h
      · simp [Except.toOption] at h
      · simp only [Except.toOption] at h
        injection h with h
        subst h
        rfl

theorem p3Branch_tags {tcs : List Char} {today : Nat} {tags : List String}
    {ds w : List Char} {r : TodoIntent}
    (h : (p3Branch tcs today tags ds w).toOption = some r) : r.tags = tags := by
  simp only [p3Branch] at h
  split at h
  · simp only [Except.toOption] at h
    injection h with h
    subst h
    rfl
  · split at h
    · simp [Except.toOption] at h
    · split at h
      · simp [Except.toOption] at h
      · simp only [Except.toOption] at h
        injection h with h
        subst h
        rfl

theorem p4Branch_tags {tcs : List Char} {today : Nat} {tags : List String}
    {ds w : List Char} {r : TodoIntent}
    (h : (p4Branch tcs today tags ds w).toOption = some r) : r.tags = tags := by
  simp only [p4Branch] at h
  split at h
  · simp only [Except.toOption] at h
    injection h with h
    subst h
    rfl
  · split at h
    · simp [Except.toOption] at h
    · split at h
      · simp [Except.toOption] at h
      · simp only [Except.toOption] at h
        injection h with h
        subst h
        rfl

/-- C1 amended: on every input on which the parser returns (does not
raise), the tags list is exactly the lower-cased groups of the
left-to-right `tag:(\w+)` scan of the raw text — independent of which
numbered pattern fires.  (In particular it lists `foo` and `bar` exactly
when the scan matches those fragments.)  No stripping guarantee is made
for `content`: patterns 1–5 return before the `tag:` stripping line runs. -/
theorem C1_tags_are_scan_groups (text : String) (today : Nat) (r : TodoIntent)
    (h : (parse_todo_input text today).toOption = some r) :
    r.tags = (findTags text.data).map (fun w => String.mk (lowerL w)) := by
  rcases hs : searchP1 text.data with _ | m
  · by_cases hd : searchDaily text.data = true
    · rw [parse_daily text today hs hd] at h
      simp only [Except.toOption] at h
      injection h with h
      subst h
      rfl
    · have hd' : searchDaily text.data = false := by simpa using hd
      rcases h3 : searchEveryN text.data with _ | ⟨ds, w⟩
      · rcases h4 : searchInN text.data with _ | ⟨ds, w⟩
        · rcases h5 : searchDeadline text.data with _ | dstr
          · rw [parse_default text today hs hd' h3 h4 h5] at h
            simp only [Except.toOption] at h
            injection h with h
            subst h
            rfl
          · rw [parse_p5 text today dstr hs hd' h3 h4 h5] at h
            simp only [Except.toOption] at h
            injection h with h
            subst h
            rfl
        · rw [parse_p4 text today ds w hs hd' h3 h4] at h
          exact p4Branch_tags h
      · rw [parse_p3 text today ds w hs hd' h3] at h
        exact p3Branch_tags h
  · rw [parse_p1 text today m hs] at h
    exact p1Branch_tags h

/-- Witness for C1 (amended): a concrete mixed-case input. -/
theorem C1_tags_are_scan_groups_witness :
    (parse_todo_input "a tag:Pro" 739536).toOption =
      some ⟨"a", "one-time", none, none, none, "medium", ["pro"]⟩ ∧
    (TodoIntent.mk "a" "one-time" none none none "medium" ["pro"]).tags =
      (findTags ("a tag:Pro" : String).data).map (fun w => String.mk (lowerL w)) :=
  ⟨by decide,
    C1_tags_are_scan_groups "a tag:Pro" 739536
      ⟨"a", "one-time", none, none, none, "medium", ["pro"]⟩ (by decide)⟩

/-- C1 counterexample: three concrete inputs falsify the claim as stated.
With `today` = 739536 (2025-10-12): (i) an input where pattern 1 fires
keeps both literal `tag:` fragments in `content`; (ii) an input containing
the literal substrings `tag:foo` and `tag:bar` whose scan instead yields
the single tag `footag`; (iii) even on the default path, removal of scan
matches can splice a literal `tag:foo` back into `content`. -/
theorem C1_counterexample :
    ((parse_todo_input "every-monday-10:00 tag:foo tag:bar" 739536).toOption.map
        (fun r => (r.content, r.tags)) =
      some ("tag:foo tag:bar", ["foo", "bar"]) ∧
      containsSub ("tag:foo tag:bar" : String).data ("tag:foo" : String).data = true) ∧
    (parse_todo_input "tag:footag:bar" 739536).toOption.map TodoIntent.tags =
      some ["footag"] ∧
    ((parse_todo_input "A tag tag:foo:foo tag:bar" 739536).toOption.map
        (fun r => (r.content, r.tags)) =
      some ("A tag:foo", ["foo", "bar"]) ∧
      containsSub ("A tag:foo" : String).data ("tag:foo" : String).data = true) := by
  refine ⟨⟨by decide, by decide⟩, by decide, by decide, by decide⟩

/-! ## Claim C2 -/

/-- C2 counterexample: the returned `content` still contains the `tag:pro`
fragment (pattern 1 returns before tag-stripping), so it is not
`"Book Scrims"`. -/
theorem C2_counterexample_content :
    (parse_todo_input "Book Scrims every-tuesday-21:00 tag:pro" 739536).toOption.map
        TodoIntent.content = some "Book Scrims tag:pro" ∧
      ("Book Scrims tag:pro" : String) ≠ "Book Scrims" :=
  ⟨by decide, by decide⟩

/-- C2 amended: for every in-range `today`, the example parses to type
`recurring`, frequency `every-Tuesday-21:00`, tags `["pro"]`, `next_due`
on the next Tuesday strictly after today at 21:00 (exactly 7 days ahead
when today is Tuesday) — and `content = "Book Scrims tag:pro"` (the tag
fragment is not stripped on this path). -/
theorem C2_book_scrims (today : Nat) (h7 : today + 7 ≤ maxOrdinal) :
    ∃ nd, (parse_todo_input "Book Scrims every-tuesday-21:00 tag:pro" today).toOption =
        some ⟨"Book Scrims tag:pro", "recurring", some "every-Tuesday-21:00",
          some (isoDateTime nd 21 0), none, "medium", ["pro"]⟩ ∧
      weekdayOfOrd nd = 1 ∧ today < nd ∧ nd ≤ today + 7 ∧
      (weekdayOfOrd today = 1 → nd = today + 7) := by
  have hs : searchP1 ("Book Scrims every-tuesday-21:00 tag:pro" : String).data =
      some ⟨"tuesday".data, 21, 0⟩ := by decide
  have hd : daysMap (String.mk (lowerL ("tuesday".data))) = some 1 := by decide
  obtain ⟨h1, h2, h3, h4⟩ := dayAhead_spec today 1 (by omega)
  refine ⟨today + dayAhead today 1, ?_, h3, by omega, by omega, fun hwd => by rw [h4 hwd]⟩
  rw [parse_p1 _ _ _ hs, p1Branch_ok _ _ _ _ 1 hd (by decide) (by decide) h7]
  rfl

/-- Witness for C2 (amended) at `today` = 739536 (Sunday 2025-10-12). -/
theorem C2_book_scrims_witness :
    739536 + 7 ≤ maxOrdinal ∧
    (∃ nd, (parse_todo_input "Book Scrims every-tuesday-21:00 tag:pro" 739536).toOption =
        some ⟨"Book Scrims tag:pro", "recurring", some "every-Tuesday-21:00",
          some (isoDateTime nd 21 0), none, "medium", ["pro"]⟩ ∧
      weekdayOfOrd nd = 1 ∧ 739536 < nd ∧ nd ≤ 739536 + 7 ∧
      (weekdayOfOrd 739536 = 1 → nd = 739536 + 7)) :=
  ⟨by decide, C2_book_scrims 739536 (by decide)⟩

/-! ## Claim C3 -/

/-- C3: whenever pattern 1 matches with a recognized weekday `t` and a
valid time, the scheduled `next_due` falls on weekday `t` at that time,
strictly after today, at most 7 days ahead — and exactly 7 days ahead
when today already is weekday `t`, regardless of the time of day. -/
theorem C3_next_weekday (text : String) (today : Nat) (m : P1M) (t : Nat)
    (hs : searchP1 text.data = some m)
    (hd : daysMap (String.mk (lowerL m.day)) = some t)
    (hh : m.hour ≤ 23) (hm : m.minute ≤ 59) (h7 : today + 7 ≤ maxOrdinal) :
    ∃ nd, (parse_todo_input text today).toOption.map TodoIntent.next_due =
        some (some (isoDateTime nd m.hour m.minute)) ∧
      weekdayOfOrd nd = t ∧ today < nd ∧ nd ≤ today + 7 ∧
      (weekdayOfOrd today = t → nd = today + 7) := by
  obtain ⟨h1, h2, h3, h4⟩ := dayAhead_spec today t (daysMap_lt _ _ hd)
  refine ⟨today + dayAhead today t, ?_, h3, by omega, by omega, fun hwd => by rw [h4 hwd]⟩
  rw [parse_p1 _ _ _ hs, p1Branch_ok _ _ _ _ t hd hh hm h7]
  rfl

/-- Witness for C3: `every-friday-08:30` seen from Sunday 2025-10-12. -/
theorem C3_next_weekday_witness :
    searchP1 ("x every-friday-08:30" : String).data = some ⟨"friday".data, 8, 30⟩ ∧
    daysMap (String.mk (lowerL ("friday".data))) = some 4 ∧
    (∃ nd, (parse_todo_input "x every-friday-08:30" 739536).toOption.map
        TodoIntent.next_due = some (some (isoDateTime nd 8 30)) ∧
      weekdayOfOrd nd = 4 ∧ 739536 < nd ∧ nd ≤ 739536 + 7 ∧
      (weekdayOfOrd 739536 = 4 → nd = 739536 + 7)) :=
  ⟨by decide, by decide,
    C3_next_weekday "x every-friday-08:30" 739536 ⟨"friday".data, 8, 30⟩ 4
      (by decide) (by decide) (by decide) (by decide) (by decide)⟩

/-! ## Claim C10 -/

/-- C10: pattern 1 with an unrecognized word still yields a recurring
intent with the normalized frequency string but no `next_due`. -/
theorem C10_unknown_weekday (text : String) (today : Nat) (m : P1M)
    (hs : searchP1 text.data = some m)
    (hd : daysMap (String.mk (lowerL m.day)) = none) :
    (parse_todo_input text today).toOption.map
        (fun r => (r.type, r.frequency, r.next_due)) =
      some ("recurring", some (freqStrP1 m), none) := by
  rw [parse_p1 _ _ _ hs]
  simp only [p1Branch]
  rw [hd]
  rfl

/-! ## Claim C4 -/

/-- Pattern-4 branch on a recognized unit within the calendar range. -/
theorem p4Branch_ok (tcs : List Char) (today : Nat) (tags : List String)
    (ds w : List Char) (delta : Nat)
    (hu : unitDelta (String.mk (lowerL w)) (digitsToNat ds) = some delta)
    (htd : delta ≤ maxTimedeltaDays) (hor : today + delta ≤ maxOrdinal) :
    p4Branch tcs today tags ds w =
      .ok ⟨String.mk (stripL (subInN tcs)), "future", none,
        some (isoDate (today + delta)), some (isoDate (today + delta)), "medium", tags⟩ := by
  simp only [p4Branch]
  rw [hu]
  dsimp only
  rw [if_neg (by omega), if_neg (by omega)]

/-- C4 counterexample: `in-9999999-days` matches pattern 4 (and none of
patterns 1–3), yet the call raises `OverflowError` instead of returning a
`future` intent: today + 9999999 days is far beyond year 9999. -/
theorem C4_counterexample_overflow :
    searchP1 ("in-9999999-days" : String).data = none ∧
    searchDaily ("in-9999999-days" : String).data = false ∧
    searchEveryN ("in-9999999-days" : String).data = none ∧
    searchInN ("in-9999999-days" : String).data = some ("9999999".data, "days".data) ∧
    isErr (parse_todo_input "in-9999999-days" 739536) = true :=
  ⟨by decide, by decide, by decide, by decide, by decide⟩

/-- C4 amended: when `in-<N>-<unit>` is the first pattern to match and the
computed date stays within the Python limits (`timedelta ≤ 999999999` days
and result ≤ 9999-12-31), the intent is `future` with
`deadline = next_due = today + delta`, where delta is N days / 7·N days /
30·N days according to the unit; in particular the `in-2-weeks` example
gives `deadline = next_due = today + 14` with tags `["perso"]`. -/
theorem C4_in_future (text : String) (today : Nat) (ds w : List Char) (delta : Nat)
    (hs1 : searchP1 text.data = none) (hs2 : searchDaily text.data = false)
    (hs3 : searchEveryN text.data = none) (hs4 : searchInN text.data = some (ds, w))
    (hu : unitDelta (String.mk (lowerL w)) (digitsToNat ds) = some delta)
    (htd : delta ≤ maxTimedeltaDays) (hor : today + delta ≤ maxOrdinal) :
    ((parse_todo_input text today).toOption.map
        (fun r => (r.type, r.deadline, r.next_due)) =
      some ("future", some (isoDate (today + delta)), some (isoDate (today + delta)))) ∧
    (∀ n : Nat, unitDelta "day" n = some n ∧ unitDelta "days" n = some n ∧
      unitDelta "week" n = some (7 * n) ∧ unitDelta "weeks" n = some (7 * n) ∧
      unitDelta "month" n = some (30 * n) ∧ unitDelta "months" n = some (30 * n)) ∧
    (∀ td : Nat, td + 14 ≤ maxOrdinal →
      (parse_todo_input "Do taxes in-2-weeks tag:perso" td).toOption.map
          (fun r => (r.type, r.deadline, r.next_due, r.tags)) =
        some ("future", some (isoDate (td + 14)), some (isoDate (td + 14)), ["perso"])) := by
  refine ⟨?_, ?_, ?_⟩
  · rw [parse_p4 text today ds w hs1 hs2 hs3 hs4,
      p4Branch_ok text.data today _ ds w delta hu htd hor]
    rfl
  · intro n
    refine ⟨rfl, rfl, rfl, rfl, rfl, rfl⟩
  · intro td htd14
    rw [parse_p4 "Do taxes in-2-weeks tag:perso" td "2".data "weeks".data
        (by decide) (by decide) (by decide) (by decide),
      p4Branch_ok _ td _ "2".data "weeks".data 14 (by decide) (by decide) htd14]
    rfl

/-- Witness for C4 (amended) at `today` = 739536. -/
theorem C4_in_future_witness :
    ((parse_todo_input "in-3-months x" 739536).toOption.map
        (fun r => (r.type, r.deadline, r.next_due)) =
      some ("future", some (isoDate (739536 + 90)), some (isoDate (739536 + 90)))) ∧
    (∀ n : Nat, unitDelta "day" n = some n ∧ unitDelta "days" n = some n ∧
      unitDelta "week" n = some (7 * n) ∧ unitDelta "weeks" n = some (7 * n) ∧
      unitDelta "month" n = some (30 * n) ∧ unitDelta "months" n = some (30 * n)) ∧
    (∀ td : Nat, td + 14 ≤ maxOrdinal →
      (parse_todo_input "Do taxes in-2-weeks tag:perso" td).toOption.map
          (fun r => (r.type, r.deadline, r.next_due, r.tags)) =
        some ("future", some (isoDate (td + 14)), some (isoDate (td + 14)), ["perso"])) :=
  C4_in_future "in-3-months x" 739536 "3".data "months".data 90
    (by decide) (by decide) (by decide) (by decide) (by decide) (by decide) (by decide)

/-! ## Claim C7 -/

/-- The only error exits of the pattern-1 branch: a recognized weekday
together with an out-of-range next date or an invalid time. -/
theorem p1Branch_error {tcs : List Char} {today : Nat} {tags : List String}
    {m : P1M} {e : String} (h : p1Branch tcs today tags m = .error e) :
    ∃ t, daysMap (String.mk (lowerL m.day)) = some t ∧
      (maxOrdinal < today + dayAhead today t ∨ 23 < m.hour ∨ 59 < m.minute) := by
  simp only [p1Branch] at h
  split at h
  · exact Except.noConfusion h
  · rename_i t heq
    refine ⟨t, heq, ?_⟩
    split at h
    · rename_i hc
      exact Or.inl hc
    · split at h
      · rename_i hc
        exact Or.inr hc
      · exact Except.noConfusion h

/-- The only error exits of the pattern-3 branch: a recognized unit whose
`timedelta` or resulting date is out of range. -/
theorem p3Branch_error {tcs : List Char} {today : Nat} {tags : List String}
    {ds w : List Char} {e : String} (h : p3Branch tcs today tags ds w = .error e) :
    ∃ delta, unitDelta (String.mk (lowerL w)) (digitsToNat ds) = some delta ∧
      (maxTimedeltaDays < delta ∨ maxOrdinal < today + delta) := by
  simp only [p3Branch] at h
  split at h
  · exact Except.noConfusion h
  · rename_i delta heq
    refine ⟨delta, heq, ?_⟩
    split at h
    · rename_i hc
      exact Or.inl hc
    · split at h
      · rename_i hc
        exact Or.inr hc
      · exact Except.noConfusion h

/-- The only error exits of the pattern-4 branch, same conditions. -/
theorem p4Branch_error {tcs : List Char} {today : Nat} {tags : List String}
    {ds w : List Char} {e : String} (h : p4Branch tcs today tags ds w = .error e) :
    ∃ delta, unitDelta (String.mk (lowerL w)) (digitsToNat ds) = some delta ∧
      (maxTimedeltaDays < delta ∨ maxOrdinal < today + delta) := by
  simp only [p4Branch] at h
  split at h
  · exact Except.noConfusion h
  · rename_i delta heq
    refine ⟨delta, heq, ?_⟩
    split at h
    · rename_i hc
      exact Or.inl hc
    · split at h
      · rename_i hc
        exact Or.inr hc
      · exact Except.noConfusion h

/-- C7 counterexample: the todo parser itself can raise — a pattern-1
match with a recognized weekday and hour 25 reaches
`datetime.time(25, 0)`, a `ValueError` with no surrounding try/except. -/
theorem C7_counterexample_parser_raises :
    isErr (parse_todo_input "every-monday-25:00" 739536) = true := by
  decide

/-- C7 amended: the scorer never raises — a selected deadline/next_due
string that does not parse contributes a deadline score of 0 — and the
parser returns a result for every input except exactly the pattern-1
matches with a recognized weekday and an invalid time or out-of-range
next date, and the pattern-3/4 matches whose computed date overflows
the Python limits. -/
theorem C7_no_raise_amended :
    (∀ (todo : StoredTodo) (today : Nat),
      parseIsoDate (selectedDeadlineStr todo) = none → deadline_score todo today = 0) ∧
    (∀ (text : String) (today : Nat) (e : String),
      parse_todo_input text today = .error e →
        (∃ m t, searchP1 text.data = some m ∧
          daysMap (String.mk (lowerL m.day)) = some t ∧
          (maxOrdinal < today + dayAhead today t ∨ 23 < m.hour ∨ 59 < m.minute)) ∨
        (∃ ds w delta, searchEveryN text.data = some (ds, w) ∧
          unitDelta (String.mk (lowerL w)) (digitsToNat ds) = some delta ∧
          (maxTimedeltaDays < delta ∨ maxOrdinal < today + delta)) ∨
        (∃ ds w delta, searchInN text.data = some (ds, w) ∧
          unitDelta (String.mk (lowerL w)) (digitsToNat ds) = some delta ∧
          (maxTimedeltaDays < delta ∨ maxOrdinal < today + delta))) := by
  constructor
  · intro todo today hp
    unfold deadline_score
    split
    · rw [hp]
    · rfl
  · intro text today e h
    rcases hs : searchP1 text.data with _ | m
    · by_cases hdly : searchDaily text.data = true
      · rw [parse_daily text today hs hdly] at h
        exact Except.noConfusion h
      · have hd' : searchDaily text.data = false := by simpa using hdly
        rcases h3 : searchEveryN text.data with _ | ⟨ds, w⟩
        · rcases h4 : searchInN text.data with _ | ⟨ds, w⟩
          · rcases h5 : searchDeadline text.data with _ | dstr
            · rw [parse_default text today hs hd' h3 h4 h5] at h
              exact Except.noConfusion h
            · rw [parse_p5 text today dstr hs hd' h3 h4 h5] at h
              exact Except.noConfusion h
          · rw [parse_p4 text today ds w hs hd' h3 h4] at h
            obtain ⟨delta, hu, hc⟩ := p4Branch_error h
            exact Or.inr (Or.inr ⟨ds, w, delta, rfl, hu, hc⟩)
        · rw [parse_p3 text today ds w hs hd' h3] at h
          obtain ⟨delta, hu, hc⟩ := p3Branch_error h
          exact Or.inr (Or.inl ⟨ds, w, delta, rfl, hu, hc⟩)
    · rw [parse_p1 text today m hs] at h
      obtain ⟨t, heq, hc⟩ := p1Branch_error h
      exact Or.inl ⟨m, t, rfl, heq, hc⟩

/-- Witness for C7 (amended): a non-parsing deadline scores 0, and the
raising input `every-monday-25:00` is classified by the characterization. -/
theorem C7_no_raise_amended_witness :
    deadline_score ⟨"one-time", "", "garbage", ""⟩ 739536 = 0 ∧
    ((∃ m t, searchP1 ("every-monday-25:00" : String).data = some m ∧
        daysMap (String.mk (lowerL m.day)) = some t ∧
        (maxOrdinal < 739536 + dayAhead 739536 t ∨ 23 < m.hour ∨ 59 < m.minute)) ∨
      (∃ ds w delta, searchEveryN ("every-monday-25:00" : String).data = some (ds, w) ∧
        unitDelta (String.mk (lowerL w)) (digitsToNat ds) = some delta ∧
        (maxTimedeltaDays < delta ∨ maxOrdinal < 739536 + delta)) ∨
      (∃ ds w delta, searchInN ("every-monday-25:00" : String).data = some (ds, w) ∧
        unitDelta (String.mk (lowerL w)) (digitsToNat ds) = some delta ∧
        (maxTimedeltaDays < delta ∨ maxOrdinal < 739536 + delta))) :=
  ⟨C7_no_raise_amended.1 ⟨"one-time", "", "garbage", ""⟩ 739536 (by decide),
    C7_no_raise_amended.2 "every-monday-25:00" 739536 "ValueError: invalid time" rfl⟩

/-! ## Claim C8 -/

/-- If no position of the input starts a weekday name, the date-phrase
search fails. -/
theorem searchDatePhrase_none (l : List Char)
    (h : ∀ i, i < l.length → matchWDAt (l.drop i) = none) :
    searchDatePhrase l = none := by
  induction l with
  | nil => rfl
  | cons c cs ih =>
    have h0 : matchWDAt (c :: cs) = none := by simpa using h 0 (by simp)
    have hd : matchDatePhraseAt (c :: cs) = none := by
      unfold matchDatePhraseAt
      rw [h0]
    show searchDatePhrase (c :: cs) = none
    unfold searchDatePhrase
    rw [hd]
    exact ih fun i hi => by simpa using h (i + 1) (by simpa using hi)

/-- Every call returns one of the structured shapes: a success with empty
error and a datetime, or a failure with one of the two fixed messages. -/
theorem parse_event_shape (dparse : String → Option PyDateTime) (text : String) :
    ((parse_event_input dparse text).success = true ∧
      (parse_event_input dparse text).error = "" ∧
      (parse_event_input dparse text).datetime ≠ none) ∨
    ((parse_event_input dparse text).success = false ∧
      ((parse_event_input dparse text).error = "Could not find date in input" ∨
        (parse_event_input dparse text).error = "Could not parse date")) := by
  unfold parse_event_input
  split
  · exact Or.inr ⟨rfl, Or.inl rfl⟩
  · dsimp only
    split
    · exact Or.inr ⟨rfl, Or.inr rfl⟩
    · split
      · exact Or.inl ⟨rfl, rfl, by simp⟩
      · split
        · exact Or.inr ⟨rfl, Or.inr rfl⟩
        · exact Or.inl ⟨rfl, rfl, by simp⟩

/-- C8: an input with no weekday name anywhere fails with the
"could not find date" error; and every call — whatever `dateutil` does —
returns a structured result: failures carry one of the two fixed
human-readable reasons, successes carry a datetime and no error. -/
theorem C8_event_failure_modes (dparse : String → Option PyDateTime) (text : String) :
    ((∀ i, i < text.data.length → matchWDAt (text.data.drop i) = none) →
      parse_event_input dparse text =
        ⟨false, none, "", "Could not find date in input"⟩) ∧
    ((parse_event_input dparse text).success = false →
      (parse_event_input dparse text).error = "Could not find date in input" ∨
      (parse_event_input dparse text).error = "Could not parse date") ∧
    ((parse_event_input dparse text).success = true →
      (parse_event_input dparse text).error = "" ∧
      (parse_event_input dparse text).datetime ≠ none) := by
  refine ⟨?_, ?_, ?_⟩
  · intro h
    unfold parse_event_input
    rw [searchDatePhrase_none text.data h]
  · intro hf
    rcases parse_event_shape dparse text with ⟨h1, _, _⟩ | ⟨_, h2⟩
    · rw [h1] at hf
      exact absurd hf (by decide)
    · exact h2
  · intro ht
    rcases parse_event_shape dparse text with ⟨_, h2, h3⟩ | ⟨h1, _⟩
    · exact ⟨h2, h3⟩
    · rw [h1] at ht
      exact absurd ht (by decide)

/-- Witness for C8 at a concrete weekday-free input. -/
theorem C8_event_failure_modes_witness :
    parse_event_input (fun _ => none) "hello 8:00 meeting" =
      ⟨false, none, "", "Could not find date in input"⟩ :=
  (C8_event_failure_modes (fun _ => none) "hello 8:00 meeting").1 (by decide)

/-- Witness for C10: `every-someday-25:99` (even the time is unchecked on
this path). -/
theorem C10_unknown_weekday_witness :
    searchP1 ("Gym every-someday-25:99" : String).data =
      some ⟨"someday".data, 25, 99⟩ ∧
    daysMap (String.mk (lowerL ("someday".data))) = none ∧
    (parse_todo_input "Gym every-someday-25:99" 739536).toOption.map
        (fun r => (r.type, r.frequency, r.next_due)) =
      some ("recurring", some (freqStrP1 ⟨"someday".data, 25, 99⟩), none) :=
  ⟨by decide, by decide,
    C10_unknown_weekday "Gym every-someday-25:99" 739536 ⟨"someday".data, 25, 99⟩
      (by decide) (by decide)⟩

end LifeOS
